import Mathlib

/-!
Verification development for the Excelius repository: a shallow embedding of
its verifier (`verify.js` of the eval library and the richer verifier module),
the read-only introspection tool set (`tools.js` / the app tool executor),
the provider transport client (`api-client.js`), and the buffer handling of
the two sandbox executors (`execute.js` and `executeInWorker`).

Cells of a parsed sheet are `string | number | null` after
`sheet_to_json(ws, { header: 1, defval: null })`; JS numbers are modelled as
rationals, and a cell read out of range (`undefined` in JS) is identified
with `null`, which every code path treats the same way as `null`.
-/

/-- Cell value of a parsed sheet: `string | number | null`. -/
inductive Cell where
  | null
  | str (s : String)
  | num (q : ℚ)
deriving DecidableEq, Repr

/-- Verdict of one verification layer: the JS strings `'pass'` / `'fail'`. -/
inductive Verdict where
  | pass
  | fail
deriving DecidableEq, Repr

/-- Read a cell of a row, `row?.[ci]`: out of range is `undefined`, identified with `null`. -/
def cellAt (row : List Cell) (ci : Nat) : Cell := row.getD ci Cell.null

/-- JS `String(v)` on a cell value (numbers via their decimal/rational print). -/
def cellToString : Cell → String
  | Cell.null => "null"
  | Cell.str s => s
  | Cell.num q => toString q

/-- JS `String(v || '')` on a cell value: `null`, the empty string and the
number `0` are falsy and print as the empty string. -/
def cellStrJS : Cell → String
  | Cell.null => ""
  | Cell.str s => s
  | Cell.num q => if q = 0 then "" else toString q

/-- Decide whether the pattern list is an initial segment of the other list. -/
def listStartsWith : List Char → List Char → Bool
  | [], _ => true
  | _ :: _, [] => false
  | a :: pat, b :: rest => a == b && listStartsWith pat rest

/-- JS `hay.includes(pat)` on character lists. -/
def containsSeq (pat : List Char) : List Char → Bool
  | [] => listStartsWith pat []
  | c :: rest => listStartsWith pat (c :: rest) || containsSeq pat rest

/-- JS `s.includes(sub)` on strings. -/
def strIncludes (s sub : String) : Bool := containsSeq sub.data s.data

/-- JS `s.toLowerCase()`: characterwise lowering. -/
def jsToLower (s : String) : String := ⟨s.data.map Char.toLower⟩

/-- JS `s.trim()`: strip leading and trailing whitespace. -/
def jsTrim (s : String) : String :=
  ⟨((s.data.dropWhile Char.isWhitespace).reverse.dropWhile
    Char.isWhitespace).reverse⟩

/-- The summary words of the verifier regex `\b(total|sum|subtotal|grand)\b`,
as lowercase character lists. -/
def summaryWords : List (List Char) :=
  [['t','o','t','a','l'], ['s','u','m'], ['s','u','b','t','o','t','a','l'],
   ['g','r','a','n','d']]

/-- JS regex word character `\w = [A-Za-z0-9_]`. -/
def isWordChar (c : Char) : Bool := c.isAlphanum || c == '_'

/-- A `\b` word boundary next to an optional neighbouring character. -/
def boundaryOk : Option Char → Bool
  | none => true
  | some c => !isWordChar c

/-- Does one summary word match at the head of `cs`, with word boundaries on
both sides (`prev` is the character just before `cs`, if any)? -/
def wordHere (prev : Option Char) (cs : List Char) : Bool :=
  summaryWords.any fun w =>
    boundaryOk prev && listStartsWith w cs && boundaryOk (cs.drop w.length).head?

/-- Scan a character list for a whole-word summary-word occurrence. -/
def scanWords : Option Char → List Char → Bool
  | prev, [] => wordHere prev []
  | prev, c :: rest => wordHere prev (c :: rest) || scanWords (some c) rest

/-- JS `/\b(total|sum|subtotal|grand)\b/i.test(s)`: case-insensitive
whole-word occurrence test, by scanning the lowercased string. -/
def isSummaryString (s : String) : Bool := scanWords none (jsToLower s).data

/-- A cell that marks its row as a summary row: a string cell whose text has a
whole-word summary-word occurrence. -/
def isSummaryCell : Cell → Bool
  | Cell.str s => isSummaryString s
  | _ => false

/-- Verifier: `(row || []).some(v => typeof v === 'string' && regex.test(v))`. -/
def isSummaryRow (row : List Cell) : Bool := row.any isSummaryCell

/-- The character just before a candidate match: last of `pre` if non-empty,
else the character before the scanned suffix. -/
def lastOr (prev : Option Char) (pre : List Char) : Option Char :=
  match pre.getLast? with
  | some c => some c
  | none => prev

/-- Declarative whole-word occurrence in `cs`, with `prev` the character just
before `cs`: some summary word appears with word boundaries on both sides. -/
def WholeWordFrom (prev : Option Char) (cs : List Char) : Prop :=
  ∃ pre w post, w ∈ summaryWords ∧ cs = pre ++ w ++ post ∧
    boundaryOk (lastOr prev pre) = true ∧ boundaryOk post.head? = true

/-- Declarative reading of the claim: the lowercased string contains a
whole-word occurrence of total, sum, subtotal or grand. -/
def HasWholeWord (s : String) : Prop := WholeWordFrom none (jsToLower s).data

/-- Verifier `approxEqual(a, b, tolerance)`: JS
`a === b || |a-b| <= tol || |a-b| <= |b| * tol`. -/
def approxEqual (a b tol : ℚ) : Bool :=
  if a = b then true
  else decide (|a - b| ≤ tol) || decide (|a - b| ≤ |b| * tol)

/-- Verifier `approxEqual` applied to a raw cell against an expected number:
a non-number cell always compares unequal (`NaN` comparisons are false). -/
def approxEqualCell (c : Cell) (b : ℚ) : Bool :=
  match c with
  | Cell.num a => approxEqual a b (1/100)
  | _ => false

/-- Verifier `getHeaders(rows)`: first row stringified via `String(h || '')`
and trimmed; empty list for an empty sheet. -/
def getHeaders (rows : List (List Cell)) : List String :=
  match rows with
  | [] => []
  | r0 :: _ => r0.map fun h => jsTrim (cellStrJS h)

/-- Verifier `colIndex(headers, name)`: case-insensitive exact header lookup;
`none` models the JS result `-1`. -/
def colIndex (headers : List String) (name : String) : Option Nat :=
  headers.findIdx? fun h => jsToLower h == jsToLower name

/-- JS `new Set(...)` built by insertion: first occurrences kept, in order. -/
def addUnique (acc : List String) (s : String) : List String :=
  if acc.contains s then acc else acc ++ [s]

/-- The ordered member list of a JS `Set` built from a list of strings. -/
def setList (l : List String) : List String := l.foldl addUnique []

/-- Expectation spec of the structure layer plus the value-check block. -/
structure RegionalTotal where
  region : String
  values : List (String × ℚ)
deriving DecidableEq, Repr

/-- Expected literal of a spot check: a number or a string. -/
inductive SpotVal where
  | num (q : ℚ)
  | str (s : String)
deriving DecidableEq, Repr

/-- One `spot_values` entry: column by header name, 0-indexed data row,
expected literal. -/
structure SpotCheck where
  col : String
  data_row : Nat
  value : SpotVal
deriving DecidableEq, Repr

/-- The `checks` block of an expectation spec (`expected.checks`). -/
structure Checks where
  column_sum : Option (List (String × ℚ))
  column_avg : Option (List (String × ℚ))
  only_category : Option String
  all_amounts_positive : Bool
  regions : Option (List String)
  profit_is_sales_minus_expenses : Bool
  regional_totals : Option (List RegionalTotal)
  has_total_row : Bool
  total_row_values : Option (List (String × ℚ))
  all_accounts_present : Bool
  expected_keys : Option (List String)
  join_key : Option String
  spot_values : Option (List SpotCheck)
deriving DecidableEq, Repr

/-- An expectation spec (`expected`). -/
structure Expected where
  sheets : Option (List String)
  min_rows : Option Nat
  required_columns : Option (List String)
  checks : Option Checks
deriving DecidableEq, Repr

/-- Verifier `checkStructure(wb, rows, headers, expected)`. -/
def checkStructure (sheetNames : List String) (rows : List (List Cell))
    (headers : List String) (e : Expected) : List String :=
  (match e.sheets with
   | some names => names.filterMap fun name =>
       if sheetNames.any (fun s => strIncludes (jsToLower s) (jsToLower name)) then none
       else some ("Missing sheet: \"" ++ name ++ "\". Found: "
                  ++ String.intercalate ", " sheetNames)
   | none => [])
  ++ (match e.min_rows with
      | some m =>
          if rows.length < m then
            ["Too few rows: " ++ toString rows.length ++ " < " ++ toString m]
          else []
      | none => [])
  ++ (match e.required_columns with
      | some cols =>
          cols.filterMap fun col =>
            if (headers.map jsToLower).contains (jsToLower col) then none
            else some ("Missing column: \"" ++ col ++ "\". Found: "
                       ++ String.intercalate ", " headers)
      | none => [])

/-- Numeric value of a cell with default 0: what one non-summary row
contributes to a column sum. -/
def numAt (row : List Cell) (ci : Nat) : ℚ :=
  match cellAt row ci with
  | Cell.num v => v
  | _ => 0

/-- The `column_sum` accumulation loop: numeric cells of column `ci` summed
over the data rows, skipping rows that look like totals or summaries. -/
def columnSumOver (dataRows : List (List Cell)) (ci : Nat) : ℚ :=
  dataRows.foldl
    (fun s row =>
      if isSummaryRow row then s
      else
        match cellAt row ci with
        | Cell.num v => s + v
        | _ => s)
    0

/-- Errors of the `column_sum` check. -/
def columnSumErrors (dataRows : List (List Cell)) (headers : List String)
    (entries : List (String × ℚ)) : List String :=
  entries.filterMap fun e =>
    match colIndex headers e.1 with
    | none => some ("column_sum: column \"" ++ e.1 ++ "\" not found")
    | some ci =>
        if approxEqual (columnSumOver dataRows ci) e.2 (1/100) then none
        else some ("column_sum: \"" ++ e.1 ++ "\" sum = "
                   ++ toString (columnSumOver dataRows ci)
                   ++ ", expected " ++ toString e.2)

/-- Errors of the `column_avg` check (no summary-row exclusion here). -/
def columnAvgErrors (dataRows : List (List Cell)) (headers : List String)
    (entries : List (String × ℚ)) : List String :=
  entries.filterMap fun e =>
    match colIndex headers e.1 with
    | none => some ("column_avg: column \"" ++ e.1 ++ "\" not found")
    | some ci =>
        let sc := dataRows.foldl
          (fun p row =>
            match cellAt row ci with
            | Cell.num v => (p.1 + v, p.2 + 1)
            | _ => p)
          ((0 : ℚ), (0 : Nat))
        let avg : ℚ := if sc.2 > 0 then sc.1 / (sc.2 : ℚ) else 0
        if approxEqual avg e.2 (1/100) then none
        else some ("column_avg: \"" ++ e.1 ++ "\" avg = " ++ toString avg
                   ++ ", expected " ++ toString e.2)

/-- Errors of the `only_category` check. -/
def onlyCategoryErrors (dataRows : List (List Cell)) (headers : List String)
    (cat : String) : List String :=
  match colIndex headers "Category" with
  | none => ["only_category: \"Category\" column not found"]
  | some ci =>
      let violations := dataRows.filter fun row =>
        let v := jsTrim (cellStrJS (cellAt row ci))
        !v.isEmpty && !(jsToLower v == jsToLower cat)
      if violations.length > 0 then
        ["only_category: " ++ toString violations.length
         ++ " rows have wrong category (expected \"" ++ cat ++ "\")"]
      else []

/-- Errors of the `all_amounts_positive` check. -/
def amountsErrors (dataRows : List (List Cell)) (headers : List String) :
    List String :=
  match colIndex headers "Amount" with
  | none => ["all_amounts_positive: \"Amount\" column not found"]
  | some ci =>
      let negatives := dataRows.filter fun row =>
        match cellAt row ci with
        | Cell.num v => decide (v < 0)
        | _ => false
      if negatives.length > 0 then
        ["all_amounts_positive: " ++ toString negatives.length
         ++ " rows have negative amounts"]
      else []

/-- Errors of the `regions` check. -/
def regionsErrors (dataRows : List (List Cell)) (headers : List String)
    (regionList : List String) : List String :=
  match colIndex headers "Region" with
  | none => ["regions: \"Region\" column not found"]
  | some ci =>
      let found := setList (dataRows.map fun row =>
        jsTrim (cellStrJS (cellAt row ci)))
      regionList.filterMap fun region =>
        if found.contains region then none
        else some ("regions: missing \"" ++ region ++ "\". Found: "
                   ++ String.intercalate ", " found)

/-- Per-row body of the profit loop: an error when Sales, Expenses and Profit
are all numeric but Profit is not approximately Sales minus Expenses. -/
def profitRowErr (r : Nat) (row : List Cell) (si ei pci : Nat) :
    Option String :=
  match cellAt row si, cellAt row ei, cellAt row pci with
  | Cell.num sales, Cell.num expenses, Cell.num profit =>
      if approxEqual profit (sales - expenses) (1/100) then none
      else some ("profit check: row " ++ toString (r + 1) ++ " profit="
                 ++ toString profit ++ ", expected "
                 ++ toString (sales - expenses) ++ " (sales=" ++ toString sales
                 ++ ", expenses=" ++ toString expenses ++ ")")
  | _, _, _ => none

/-- Helper for the missing-column message of the profit check: the JS index
(`-1` when the header is missing). -/
def jsIdx : Option Nat → String
  | some i => toString i
  | none => "-1"

/-- Errors of the `profit_is_sales_minus_expenses` check. -/
def profitErrors (dataRows : List (List Cell)) (headers : List String) :
    List String :=
  let si := colIndex headers "Sales"
  let ei := colIndex headers "Expenses"
  let pci := colIndex headers "Profit"
  if si.isNone || ei.isNone || pci.isNone then
    ["profit check: missing column(s). Need Sales(" ++ jsIdx si
     ++ "), Expenses(" ++ jsIdx ei ++ "), Profit(" ++ jsIdx pci ++ ")"]
  else
    dataRows.enum.filterMap fun p =>
      profitRowErr p.1 p.2 (si.getD 0) (ei.getD 0) (pci.getD 0)

/-- Errors of the `regional_totals` check. -/
def regionalTotalsErrors (dataRows : List (List Cell)) (headers : List String)
    (rts : List RegionalTotal) : List String :=
  match colIndex headers "Region" with
  | none => ["regional_totals: \"Region\" column not found"]
  | some regionCI =>
      rts.flatMap fun rt =>
        match dataRows.find? (fun r =>
            jsTrim (cellStrJS (cellAt r regionCI)) == rt.region) with
        | none => ["regional_totals: row for \"" ++ rt.region ++ "\" not found"]
        | some row =>
            rt.values.filterMap fun e =>
              match colIndex headers e.1 with
              | none => some ("regional_totals: column \"" ++ e.1
                              ++ "\" not found")
              | some ci =>
                  if approxEqualCell (cellAt row ci) e.2 then none
                  else some ("regional_totals: " ++ rt.region ++ "." ++ e.1
                             ++ " = " ++ cellToString (cellAt row ci)
                             ++ ", expected " ++ toString e.2)

/-- A row containing the text "total" in some string cell
(case-insensitive substring, not whole word). -/
def rowHasTotalText (row : List Cell) : Bool :=
  row.any fun v =>
    match v with
    | Cell.str s => strIncludes (jsToLower s) "total"
    | _ => false

/-- Errors of the `has_total_row` check. -/
def hasTotalRowErrors (dataRows : List (List Cell)) : List String :=
  if dataRows.any rowHasTotalText then []
  else ["has_total_row: no row contains \"Total\""]

/-- Errors of the `total_row_values` check. -/
def totalRowValuesErrors (dataRows : List (List Cell)) (headers : List String)
    (entries : List (String × ℚ)) : List String :=
  match dataRows.find? rowHasTotalText with
  | none => ["total_row_values: no total row found"]
  | some totalRow =>
      entries.filterMap fun e =>
        match colIndex headers e.1 with
        | none => some ("total_row_values: column \"" ++ e.1 ++ "\" not found")
        | some ci =>
            if approxEqualCell (cellAt totalRow ci) e.2 then none
            else some ("total_row_values: Total." ++ e.1 ++ " = "
                       ++ cellToString (cellAt totalRow ci) ++ ", expected "
                       ++ toString e.2)

/-- Errors of the `all_accounts_present` join-completeness check. -/
def accountsErrors (dataRows : List (List Cell)) (headers : List String)
    (keys : List String) (joinKey : Option String) : List String :=
  let keyCol :=
    match joinKey with
    | some k => if k.isEmpty then headers.getD 0 "" else k
    | none => headers.getD 0 ""
  match colIndex headers keyCol with
  | none => ["all_accounts_present: key column \"" ++ keyCol ++ "\" not found"]
  | some ci =>
      let found := setList (dataRows.map fun row =>
        jsTrim (cellStrJS (cellAt row ci)))
      let missing := keys.filter fun k => !found.contains k
      if missing.length > 0 then
        ["all_accounts_present: " ++ toString missing.length
         ++ " missing keys: " ++ String.intercalate ", " (missing.take 5)
         ++ (if missing.length > 5 then "..." else "")]
      else []

/-- Errors of the `spot_values` check. -/
def spotErrors (dataRows : List (List Cell)) (headers : List String)
    (spots : List SpotCheck) : List String :=
  spots.filterMap fun spot =>
    match colIndex headers spot.col with
    | none => some ("spot_values: column \"" ++ spot.col ++ "\" not found")
    | some ci =>
        match dataRows.get? spot.data_row with
        | none => some ("spot_values: data row " ++ toString spot.data_row
                        ++ " doesn't exist")
        | some row =>
            match spot.value with
            | SpotVal.num v =>
                if approxEqualCell (cellAt row ci) v then none
                else some ("spot_values: row " ++ toString spot.data_row
                           ++ " \"" ++ spot.col ++ "\" = "
                           ++ cellToString (cellAt row ci) ++ ", expected "
                           ++ toString v)
            | SpotVal.str sv =>
                if jsTrim (cellStrJS (cellAt row ci)) == jsTrim sv then none
                else some ("spot_values: row " ++ toString spot.data_row
                           ++ " \"" ++ spot.col ++ "\" = \""
                           ++ cellToString (cellAt row ci) ++ "\", expected \""
                           ++ sv ++ "\"")

/-- Degenerate-output guard: the first up-to-5 data rows all have numeric
cells and every one of them is zero. -/
def allZerosErrors (dataRows : List (List Cell)) : List String :=
  if dataRows.length > 0 then
    let allZeros := (dataRows.take 5).all fun row =>
      let nums := row.filterMap fun v =>
        match v with
        | Cell.num q => some q
        | _ => none
      !nums.isEmpty && nums.all fun v => decide (v = 0)
    if allZeros then ["Data rows have all zeros in numeric columns"] else []
  else []

/-- Verifier `checkValues(rows, headers, checks)`: all value checks, errors
concatenated in source order. -/
def checkValues (rows : List (List Cell)) (headers : List String)
    (checksOpt : Option Checks) : List String :=
  match checksOpt with
  | none => []
  | some checks =>
      let dataRows := rows.drop 1
      allZerosErrors dataRows
      ++ (match checks.column_sum with
          | some es => columnSumErrors dataRows headers es
          | none => [])
      ++ (match checks.column_avg with
          | some es => columnAvgErrors dataRows headers es
          | none => [])
      ++ (match checks.only_category with
          | some cat =>
              if cat.isEmpty then [] else onlyCategoryErrors dataRows headers cat
          | none => [])
      ++ (if checks.all_amounts_positive then amountsErrors dataRows headers
          else [])
      ++ (match checks.regions with
          | some rs => regionsErrors dataRows headers rs
          | none => [])
      ++ (if checks.profit_is_sales_minus_expenses then
            profitErrors dataRows headers
          else [])
      ++ (match checks.regional_totals with
          | some rts => regionalTotalsErrors dataRows headers rts
          | none => [])
      ++ (if checks.has_total_row then hasTotalRowErrors dataRows else [])
      ++ (match checks.total_row_values with
          | some es => totalRowValuesErrors dataRows headers es
          | none => [])
      ++ (if checks.all_accounts_present then
            match checks.expected_keys with
            | some ks => accountsErrors dataRows headers ks checks.join_key
            | none => []
          else [])
      ++ (match checks.spot_values with
          | some sps => spotErrors dataRows headers sps
          | none => [])

/-- Parse result of the output workbook: sheet names plus the first sheet as a
row matrix (`sheet_to_json` with `header: 1, defval: null`). -/
structure ParsedWb where
  sheetNames : List String
  rows : List (List Cell)
deriving DecidableEq, Repr

/-- Result record of `verifyOutput`. The `styling_pass` field is only set on
the normal path (it is absent, `none`, after a parse failure). -/
structure VerifyResult where
  structure_ : Verdict
  values : Verdict
  styling : Verdict
  errors : List String
  pass : Bool
  row_count : Nat
  sheet_names : List String
  styling_pass : Option Bool
deriving DecidableEq, Repr

/-- Verifier `verifyOutput(buffer, expected)`.

The XLSX parse of the buffer is the `Except` argument (exception message on
a parse failure), and the result of the asynchronous `checkStyling` call on
the buffer is the `stylingErrors` argument: the function body dictates when
that result is consulted. On a parse failure the JS returns early with only
the structure failure; otherwise each layer verdict is set from its own error
list, errors are concatenated in layer order, and
`pass = structure === 'pass' && values === 'pass'`. -/
def verifyOutput (parsed : Except String ParsedWb)
    (stylingErrors : List String) (expected : Expected) : VerifyResult :=
  match parsed with
  | Except.error msg =>
      { structure_ := Verdict.fail, values := Verdict.pass,
        styling := Verdict.pass,
        errors := ["Cannot parse xlsx: " ++ msg], pass := false,
        row_count := 0, sheet_names := [], styling_pass := none }
  | Except.ok wb =>
      let headers := getHeaders wb.rows
      let structErrors := checkStructure wb.sheetNames wb.rows headers expected
      let valueErrors := checkValues wb.rows headers expected.checks
      let structV := if structErrors.isEmpty then Verdict.pass else Verdict.fail
      let valuesV := if valueErrors.isEmpty then Verdict.pass else Verdict.fail
      let stylingV := if stylingErrors.isEmpty then Verdict.pass else Verdict.fail
      { structure_ := structV, values := valuesV, styling := stylingV,
        errors := structErrors ++ valueErrors ++ stylingErrors,
        pass := decide (structV = Verdict.pass) && decide (valuesV = Verdict.pass),
        row_count := wb.rows.length, sheet_names := wb.sheetNames,
        styling_pass := some (decide (stylingV = Verdict.pass)) }

/-- Index list of the JS loop `for (let r = a; r < b; r++)` over integers. -/
def idxRange (a b : Int) : List Int :=
  (List.range (b - a).toNat).map fun i => a + Int.ofNat i

/-- Read a cell of the row matrix at an integer row index:
`(rows[r] || [])[col]`, with negative or out-of-range indices giving
`undefined`, identified with `null`. -/
def cellAtInt (rows : List (List Cell)) (r : Int) (col : Nat) : Cell :=
  if r < 0 then Cell.null else cellAt (rows.getD r.toNat []) col

/-- Result of the `read_rows` tool. -/
structure ReadRowsOut where
  total_rows : Nat
  returned : Nat
  rows : List (Int × List Cell)
deriving DecidableEq, Repr

/-- Tool `read_rows`: clamp the start at 0, clamp the end at the sheet length,
the requested end, and start plus the 50-row cap, then return the rows of the
clamped span together with the true sheet length. -/
def readRows (rows : List (List Cell)) (start_row end_row : Int) :
    ReadRowsOut :=
  let start : Int := max 0 start_row
  let stop : Int := min (min (rows.length : Int) end_row) (start + 50)
  let out := (idxRange start stop).map fun r => (r, rows.getD r.toNat [])
  { total_rows := rows.length, returned := out.length, rows := out }

/-- A cell the column-stats loop counts as empty:
`v === null || v === undefined || v === ''`. -/
def isEmptyCell : Cell → Bool
  | Cell.null => true
  | Cell.str s => s.isEmpty
  | Cell.num _ => false

/-- Accumulator of the column-stats loop. -/
structure StatsAcc where
  count : Nat
  emptyCount : Nat
  numCnt : Nat
  strCnt : Nat
  uniques : List String
deriving DecidableEq, Repr

/-- One iteration of the column-stats loop: count empty and non-empty cells,
the type histogram, and collect stringified values into the uniques set only
while it holds fewer than 30 entries. -/
def statsStep (acc : StatsAcc) (v : Cell) : StatsAcc :=
  if isEmptyCell v then { acc with emptyCount := acc.emptyCount + 1 }
  else
    { count := acc.count + 1,
      emptyCount := acc.emptyCount,
      numCnt := acc.numCnt + (match v with | Cell.num _ => 1 | _ => 0),
      strCnt := acc.strCnt + (match v with | Cell.str _ => 1 | _ => 0),
      uniques :=
        if acc.uniques.length < 30 then addUnique acc.uniques (cellToString v)
        else acc.uniques }

/-- The `unique_count` field: the JS value is either a number or the string
`'30+'`. -/
inductive UniqueCount where
  | exact (n : Nat)
  | thirtyPlus
deriving DecidableEq, Repr

/-- Result of the `get_column_stats` tool. -/
structure ColStats where
  column : Nat
  from_row : Int
  non_empty : Nat
  empty : Nat
  numCnt : Nat
  strCnt : Nat
  unique_count : UniqueCount
  unique_values : List String
deriving DecidableEq, Repr

/-- Tool `get_column_stats`: scan the column from `startRow`, then report the
counts, `unique_count` (`'30+'` once the set reached the cap) and
`unique_values` (the set, or the first 30 plus a `'...'` marker). -/
def columnStats (rows : List (List Cell)) (col : Nat) (startRow : Int) :
    ColStats :=
  let vals := (idxRange startRow (rows.length : Int)).map fun r =>
    cellAtInt rows r col
  let acc := vals.foldl statsStep ⟨0, 0, 0, 0, []⟩
  { column := col, from_row := startRow, non_empty := acc.count,
    empty := acc.emptyCount, numCnt := acc.numCnt, strCnt := acc.strCnt,
    unique_count :=
      if acc.uniques.length ≥ 30 then UniqueCount.thirtyPlus
      else UniqueCount.exact acc.uniques.length,
    unique_values :=
      if acc.uniques.length ≤ 30 then acc.uniques
      else acc.uniques.take 30 ++ ["..."] }

/-- Loop of the `find_rows` tool: scan rows in order, keep rows whose cell in
the search column stringifies to the target, stop at the result budget. -/
def findRowsGo (col : Nat) (target : String) :
    List (List Cell) → Nat → Nat → List (Nat × List Cell)
  | [], _, _ => []
  | _ :: _, _, 0 => []
  | row :: rest, r, b + 1 =>
      if cellAt row col ≠ Cell.null ∧ cellToString (cellAt row col) = target
      then (r, row) :: findRowsGo col target rest (r + 1) b
      else findRowsGo col target rest (r + 1) (b + 1)

/-- Result of the `find_rows` tool. -/
structure FindRowsOut where
  matches_ : Nat
  rows : List (Nat × List Cell)
deriving DecidableEq, Repr

/-- Tool `find_rows`. -/
def findRows (rows : List (List Cell)) (col : Nat) (target : String)
    (maxResults : Nat) : FindRowsOut :=
  let out := findRowsGo col target rows 0 maxResults
  { matches_ := out.length, rows := out }

/-- Key set of one side of `compare_keys`: trimmed non-empty stringified cell
values of the key column from the start row onward, collected as a JS `Set`
(first occurrences, insertion order). -/
def keysList (rows : List (List Cell)) (col : Nat) (start : Int) :
    List String :=
  (idxRange start (rows.length : Int)).foldl
    (fun acc r =>
      match cellAtInt rows r col with
      | Cell.null => acc
      | v =>
          let s := jsTrim (cellToString v)
          if s.isEmpty then acc else addUnique acc s)
    []

/-- Result of the `compare_keys` tool. -/
structure CompareKeysOut where
  file1_keys : Nat
  file2_keys : Nat
  shared : Nat
  only_in_file1 : Nat
  only_in_file2 : Nat
  sample_only_file1 : List String
  sample_only_file2 : List String
deriving DecidableEq, Repr

/-- Tool `compare_keys`: build both key sets, count shared keys and the keys
present on one side only, and sample up to 5 of each one-sided difference. -/
def compareKeys (rows1 : List (List Cell)) (col1 : Nat) (start1 : Int)
    (rows2 : List (List Cell)) (col2 : Nat) (start2 : Int) : CompareKeysOut :=
  let keys1 := keysList rows1 col1 start1
  let keys2 := keysList rows2 col2 start2
  let sharedL := keys1.filter fun k => keys2.contains k
  let only1 := keys1.filter fun k => !keys2.contains k
  let only2 := keys2.filter fun k => !keys1.contains k
  { file1_keys := keys1.length, file2_keys := keys2.length,
    shared := sharedL.length,
    only_in_file1 := only1.length, only_in_file2 := only2.length,
    sample_only_file1 := only1.take 5, sample_only_file2 := only2.take 5 }

/-- One parsed sheet of an uploaded file. -/
structure SheetData where
  name : String
  rows : List (List Cell)
deriving DecidableEq, Repr

/-- One uploaded file as the tool executor sees it: name plus parsed sheets. -/
structure WbFile where
  name : String
  sheets : List SheetData
deriving DecidableEq, Repr

/-- Tool executor `findFile(nameQuery)`: case-insensitive exact name match
first, then case-insensitive substring fallback. -/
def findFile (files : List WbFile) (q : String) : Option WbFile :=
  match files.find? (fun f => jsToLower f.name == jsToLower q) with
  | some f => some f
  | none => files.find? fun f => strIncludes (jsToLower f.name) (jsToLower q)

/-- Tool executor `getSheet(file, sheetName)`: the named sheet, or the first
sheet when no name is given; an error naming the available sheets when the
lookup fails. -/
def getSheetE (f : WbFile) (sheetName : Option String) :
    Except String SheetData :=
  let name :=
    match sheetName with
    | some s =>
        if s.isEmpty then (match f.sheets.head? with
                           | some sd => sd.name
                           | none => "undefined")
        else s
    | none =>
        match f.sheets.head? with
        | some sd => sd.name
        | none => "undefined"
  match f.sheets.find? (fun sd => sd.name == name) with
  | some sd => Except.ok sd
  | none =>
      Except.error ("Sheet \"" ++ name ++ "\" not found. Available: "
                    ++ String.intercalate ", " (f.sheets.map SheetData.name))

/-- Tool executor `fileNotFound(nameQuery)`: the error message listing every
available file name. -/
def fileNotFoundMsg (files : List WbFile) (q : String) : String :=
  "File not found: \"" ++ q ++ "\". Available: "
  ++ String.intercalate ", " (files.map WbFile.name)

/-- Input object of a tool call, with the fields of the tool JSON schemas
(each tool reads only the fields of its own schema; fields a schema marks
optional are `Option`-typed). -/
structure ToolInput where
  file : String
  sheet : Option String
  start_row : Int
  end_row : Int
  column : Nat
  value : String
  max_results : Option Nat
  file1 : String
  col1 : Nat
  start1 : Int
  sheet1 : Option String
  file2 : String
  col2 : Nat
  start2 : Int
  sheet2 : Option String
deriving DecidableEq, Repr

/-- Column extent of a sheet's row matrix (models the `!ref` range extent
reported by `list_files`). -/
def maxCols (rows : List (List Cell)) : Nat :=
  rows.foldl (fun m r => max m r.length) 0

/-- Result value of one tool call: every branch of the executor returns an
ordinary value, errors as a value with an `error` field. -/
inductive ToolOut where
  | error (msg : String)
  | listOut (entries : List (String × List (String × Nat × Nat)))
  | readOut (r : ReadRowsOut)
  | statsOut (r : ColStats)
  | findOut (r : FindRowsOut)
  | keysOut (r : CompareKeysOut)
deriving DecidableEq, Repr

/-- The headless tool executor `executeTool(name, input)` over the parsed
files: dispatch on the tool name; unresolved files and sheets, the terminal
sentinel tools, and unknown tool names all return error values. -/
def executeTool (files : List WbFile) (name : String) (input : ToolInput) :
    ToolOut :=
  if name = "list_files" then
    ToolOut.listOut (files.map fun f =>
      (f.name, f.sheets.map fun sd => (sd.name, sd.rows.length, maxCols sd.rows)))
  else if name = "read_rows" then
    match findFile files input.file with
    | none => ToolOut.error (fileNotFoundMsg files input.file)
    | some f =>
        match getSheetE f input.sheet with
        | Except.error e => ToolOut.error e
        | Except.ok sd =>
            ToolOut.readOut (readRows sd.rows input.start_row input.end_row)
  else if name = "get_column_stats" then
    match findFile files input.file with
    | none => ToolOut.error (fileNotFoundMsg files input.file)
    | some f =>
        match getSheetE f input.sheet with
        | Except.error e => ToolOut.error e
        | Except.ok sd =>
            ToolOut.statsOut (columnStats sd.rows input.column input.start_row)
  else if name = "find_rows" then
    match findFile files input.file with
    | none => ToolOut.error (fileNotFoundMsg files input.file)
    | some f =>
        match getSheetE f input.sheet with
        | Except.error e => ToolOut.error e
        | Except.ok sd =>
            ToolOut.findOut
              (findRows sd.rows input.column input.value
                (input.max_results.getD 10))
  else if name = "compare_keys" then
    match findFile files input.file1 with
    | none => ToolOut.error (fileNotFoundMsg files input.file1)
    | some f1 =>
        match findFile files input.file2 with
        | none => ToolOut.error (fileNotFoundMsg files input.file2)
        | some f2 =>
            match getSheetE f1 input.sheet1 with
            | Except.error e => ToolOut.error e
            | Except.ok sd1 =>
                match getSheetE f2 input.sheet2 with
                | Except.error e => ToolOut.error e
                | Except.ok sd2 =>
                    ToolOut.keysOut
                      (compareKeys sd1.rows input.col1 input.start1
                        sd2.rows input.col2 input.start2)
  else if name = "submit_report" then
    ToolOut.error "submit_report is handled by the agent loop"
  else if name = "generate_code" then
    ToolOut.error "generate_code is handled by the agent loop"
  else
    ToolOut.error ("Unknown tool: " ++ name)

/-- The fixed tool vocabulary of the executor. -/
def toolNames : List String :=
  ["list_files", "read_rows", "get_column_stats", "find_rows",
   "compare_keys", "submit_report", "generate_code"]

/-- The transient statuses the transport retries:
`RETRY_STATUS_CODES = [429, 529, 502, 503]`. -/
def RETRY_STATUS_CODES : List Nat := [429, 529, 502, 503]

/-- The transport retry budget: `MAX_API_RETRIES = 3`. -/
def MAX_API_RETRIES : Nat := 3

/-- JS `response.ok`: HTTP status in the 2xx range. -/
def respOk (s : Nat) : Bool := decide (200 ≤ s) && decide (s < 300)

/-- The backoff delay before the retry issued after attempt index `attempt`,
in milliseconds: `Math.min(1000 * Math.pow(2, attempt), 8000)`. -/
def backoff (attempt : Nat) : Nat := min (1000 * 2 ^ attempt) 8000

/-- Outcome of the transport client: the successful attempt index, or a fatal
throw recording the last attempt index and its HTTP status. -/
inductive ApiOutcome where
  | ok (attempt : Nat)
  | fatal (attempt : Nat) (status : Nat)
deriving DecidableEq, Repr

/-- The `callClaude` retry loop, with the environment's response to attempt
`i` given by `responses i`. `retriesLeft` is `MAX_API_RETRIES - attempt`, so
the guard `attempt < MAX_API_RETRIES` of the retry branch is the match on
`retriesLeft`. Returns the outcome paired with the total backoff delay slept
(in milliseconds). -/
def callClaudeGo (responses : Nat → Nat) (attempt : Nat) :
    Nat → ApiOutcome × Nat
  | 0 =>
      if respOk (responses attempt) then (ApiOutcome.ok attempt, 0)
      else (ApiOutcome.fatal attempt (responses attempt), 0)
  | r + 1 =>
      if respOk (responses attempt) then (ApiOutcome.ok attempt, 0)
      else if responses attempt ∈ RETRY_STATUS_CODES then
        let rest := callClaudeGo responses (attempt + 1) r
        (rest.1, backoff attempt + rest.2)
      else (ApiOutcome.fatal attempt (responses attempt), 0)

/-- Transport `callClaude`: up to `MAX_API_RETRIES` retries after the first
attempt, so at most four requests in total. -/
def callClaude (responses : Nat → Nat) : ApiOutcome × Nat :=
  callClaudeGo responses 0 MAX_API_RETRIES

/-- A byte buffer of the sandbox model. -/
abbrev ByteBuf := List Nat

/-- The buffer heap: buffers addressed by index, so distinct indices are
distinct buffer objects and a shared index is aliasing. -/
structure Heap where
  bufs : List ByteBuf
deriving DecidableEq, Repr

/-- One input file handed to an executor: name plus the heap index of its
source byte buffer. -/
structure FileSlot where
  name : String
  buf : Nat
deriving DecidableEq, Repr

/-- The observable effect of one run of generated code on the buffers it was
handed: an arbitrary finite sequence of byte writes, each naming the index of
a handed file, an offset and a byte value. -/
abbrev GenWrites := List (Nat × Nat × Nat)

/-- Write one byte into a buffer; an out-of-range offset is a no-op. -/
def applyWrite (b : ByteBuf) (off v : Nat) : ByteBuf := b.set off v

/-- Write one byte into the heap buffer at index `id`. -/
def writeHeap (h : Heap) (id off v : Nat) : Heap :=
  ⟨h.bufs.set id (applyWrite (h.bufs.getD id []) off v)⟩

/-- The headless executor `execute(code, files)`: the generated function is
called directly on the `files` array, so each write of the code lands on the
original buffer of the named file. -/
def executeHeadless (h : Heap) (files : List FileSlot) (code : GenWrites) :
    Heap :=
  code.foldl
    (fun hh w =>
      match files.get? w.1 with
      | some f => writeHeap hh f.buf w.2.1 w.2.2
      | none => hh)
    h

/-- The browser executor `executeInWorker(code, files)`: it first builds
`fileBuffers = files.map(f => ({ name, buffer: f.buffer.slice(0) }))` — fresh
copies, modelled as new heap cells appended after the existing ones — and the
worker only ever receives those copies, so each write of the code lands on a
copy. -/
def executeWorker (h : Heap) (files : List FileSlot) (code : GenWrites) :
    Heap :=
  let base := h.bufs.length
  let h0 : Heap := ⟨h.bufs ++ files.map fun f => h.bufs.getD f.buf []⟩
  code.foldl
    (fun hh w =>
      if w.1 < files.length then writeHeap hh (base + w.1) w.2.1 w.2.2
      else hh)
    h0

/-- Read a buffer of the heap by index. -/
def getBuf (h : Heap) (id : Nat) : ByteBuf := h.bufs.getD id []

/-- The non-empty stringified values of a column scan, in scan order: what
the column-stats loop feeds into its uniques set. -/
def colValues (rows : List (List Cell)) (col : Nat) (startRow : Int) :
    List String :=
  ((idxRange startRow (rows.length : Int)).map fun r =>
    cellAtInt rows r col).filterMap fun v =>
      if isEmptyCell v then none else some (cellToString v)

/-- The number of distinct non-empty stringified values of a column scan. -/
def distinctValueCount (rows : List (List Cell)) (col : Nat)
    (startRow : Int) : Nat :=
  (setList (colValues rows col startRow)).length

/-- Claim C1: for every output buffer and expectation spec, the overall pass
verdict of `verifyOutput` is true iff both the structure layer and the values
layer pass, and the styling layer (here: the `checkStyling` error list) never
affects the overall pass. -/
theorem claim_C1_pass_iff_structure_and_values :
    ∀ (parsed : Except String ParsedWb) (se se' : List String) (exp : Expected),
      ((verifyOutput parsed se exp).pass = true ↔
        (verifyOutput parsed se exp).structure_ = Verdict.pass ∧
        (verifyOutput parsed se exp).values = Verdict.pass) ∧
      (verifyOutput parsed se exp).pass = (verifyOutput parsed se' exp).pass := by
  intro parsed se se' exp
  cases parsed with
  | error msg => simp [verifyOutput]
  | ok wb => simp [verifyOutput]

/-- Claim C2, counterexample: with responses 503, 503, 503, 200, the client
does not fail fatally after the three consecutive 503s — it sleeps
1s + 2s + 4s and issues a fourth request, which here succeeds. So three
consecutive 503s do not exhaust the retry budget. -/
theorem claim_C2_counterexample :
    callClaude (fun i => if i < 3 then 503 else 200) = (ApiOutcome.ok 3, 7000) := by
  decide

/-- Claim C2, amended: a 2xx first response succeeds at once; transient
statuses are retried with backoff 1s, 2s, 4s (each capped at 8s) up to a
budget of 3 retries, i.e. four requests in total, so FOUR consecutive 503s
(not three) fail fatally after a total backoff of 7s with no fifth attempt;
and a non-transient non-success status is immediately fatal with no retry. -/
theorem claim_C2_amended :
    ∀ responses : Nat → Nat,
      (respOk (responses 0) = true →
        callClaude responses = (ApiOutcome.ok 0, 0)) ∧
      ((∀ i, i ≤ 3 → responses i = 503) →
        callClaude responses = (ApiOutcome.fatal 3 503, 7000)) ∧
      (respOk (responses 0) = false → responses 0 ∉ RETRY_STATUS_CODES →
        callClaude responses = (ApiOutcome.fatal 0 (responses 0), 0)) ∧
      backoff 0 = 1000 ∧ backoff 1 = 2000 ∧ backoff 2 = 4000 ∧
      ∀ i, backoff i ≤ 8000 := by
  intro responses
  refine ⟨?_, ?_, ?_, by decide, by decide, by decide, fun i => min_le_right _ _⟩
  · intro h
    simp [callClaude, callClaudeGo, MAX_API_RETRIES, h]
  · intro h
    have h0 := h 0 (by norm_num)
    have h1 := h 1 (by norm_num)
    have h2 := h 2 (by norm_num)
    have h3 := h 3 (by norm_num)
    simp [callClaude, callClaudeGo, MAX_API_RETRIES, h0, h1, h2, h3,
      respOk, RETRY_STATUS_CODES, backoff]
  · intro h1 h2
    simp [callClaude, callClaudeGo, MAX_API_RETRIES, h1, h2]

/-- Claim C2, amended, witness: four consecutive 503s are fatal after 7s of
backoff, and a 400 is immediately fatal with no backoff. -/
theorem claim_C2_witness :
    callClaude (fun _ => 503) = (ApiOutcome.fatal 3 503, 7000) ∧
    callClaude (fun _ => 400) = (ApiOutcome.fatal 0 400, 0) :=
  ⟨(claim_C2_amended (fun _ => 503)).2.1 (fun i _ => rfl),
   (claim_C2_amended (fun _ => 400)).2.2.1 (by decide) (by decide)⟩

/-- Claim C3, counterexample: a requested span larger than the cap does not
always return exactly 50 rows — on a one-row sheet, `read_rows` with
`start_row = 0`, `end_row = 60` (span 60 > 50) returns 1 row. -/
theorem claim_C3_counterexample :
    ¬ ∀ (rows : List (List Cell)) (s e : Int), 50 < e - s →
        (readRows rows s e).returned = 50 ∧
        (readRows rows s e).total_rows = rows.length := by
  intro h
  have h1 := (h [[Cell.null]] 0 60 (by norm_num)).1
  have h2 : (readRows [[Cell.null]] 0 60).returned = 1 := by decide
  omega

/-- Claim C3, amended: `total_rows` always equals the true sheet length; and
when the start row is non-negative, the requested span exceeds the

50-row cap, and the sheet has at least `start_row + 50` rows, exactly 50 rows
are returned. -/
theorem claim_C3_amended :
    ∀ (rows : List (List Cell)) (s e : Int),
      (readRows rows s e).total_rows = rows.length ∧
      (0 ≤ s → 50 < e - s → s.toNat + 50 ≤ rows.length →
        (readRows rows s e).returned = 50) := by
  intro rows s e
  refine ⟨rfl, ?_⟩
  intro hs hspan hlen
  have hstart : max 0 s = s := max_eq_right hs
  have hsn : ((s.toNat : Nat) : Int) = s := Int.toNat_of_nonneg hs
  have hlen' : s + 50 ≤ (rows.length : Int) := by omega
  have he : s + 50 ≤ e := by omega
  have hmin : min (min (rows.length : Int) e) (s + 50) = s + 50 :=
    min_eq_right (le_min hlen' he)
  show ((idxRange (max 0 s) (min (min (rows.length : Int) e) (max 0 s + 50))).map
    (fun r => (r, rows.getD r.toNat []))).length = 50
  rw [hstart, hmin]
  simp only [idxRange, List.length_map, List.length_range]
  omega

/-- Claim C3, amended, witness: on a 50-row sheet, the call with
`start_row = 0`, `end_row = 51` returns exactly 50 rows, and `total_rows`
is the sheet length. -/
theorem claim_C3_witness :
    (readRows (List.replicate 50 ([] : List Cell)) 0 51).total_rows = 50 ∧
    (readRows (List.replicate 50 ([] : List Cell)) 0 51).returned = 50 :=
  ⟨(claim_C3_amended (List.replicate 50 []) 0 51).1.trans (by decide),
   (claim_C3_amended (List.replicate 50 []) 0 51).2 (by decide) (by decide)
     (by decide)⟩

/-- A heap write at one index leaves every other index unchanged. -/
theorem writeHeap_getBuf_ne (h : Heap) (id off v j : Nat) (hne : j ≠ id) :
    getBuf (writeHeap h id off v) j = getBuf h j := by
  simp [getBuf, writeHeap, List.getD_eq_getElem?_getD,
    List.getElem?_set_ne (fun hc => hne hc.symm)]

/-- Folding worker writes, all at indices `base + i`, leaves every index
below `base` unchanged. -/
theorem foldWrites_getBuf (n base id : Nat) (hid : id < base) :
    ∀ (code : GenWrites) (hh : Heap),
      getBuf (code.foldl
        (fun hh w =>
          if w.1 < n then writeHeap hh (base + w.1) w.2.1 w.2.2 else hh) hh) id
      = getBuf hh id := by
  intro code
  induction code with
  | nil => intro hh; rfl
  | cons w rest ih =>
      intro hh
      rw [List.foldl_cons, ih]
      by_cases hw : w.1 < n
      · rw [if_pos hw, writeHeap_getBuf_ne]
        omega
      · rw [if_neg hw]

/-- Claim C6, counterexample: the headless pipeline executor hands the
generated code the original buffers — the one-write program that zeroes the
first byte of the first file changes the source buffer from `[1]` to `[0]`. -/
theorem claim_C6_counterexample :
    getBuf (executeHeadless ⟨[[1]]⟩ [⟨"data.xlsx", 0⟩] [(0, 0, 0)]) 0 ≠
      getBuf ⟨[[1]]⟩ 0 := by
  decide

/-- Claim C6, amended: the browser worker executor hands the generated code
`slice(0)` copies of the file buffers via ownership transfer, so all of its
writes land on the copies and every source buffer is left unchanged; the
headless pipeline executor, by contrast, passes the original buffers to the
generated function, which can therefore mutate them. -/
theorem claim_C6_amended :
    ∀ (h : Heap) (files : List FileSlot) (code : GenWrites) (id : Nat),
      id < h.bufs.length →
      getBuf (executeWorker h files code) id = getBuf h id := by
  intro h files code id hid
  show getBuf (code.foldl _ ⟨h.bufs ++ files.map fun f => h.bufs.getD f.buf []⟩) id
    = getBuf h id
  rw [foldWrites_getBuf files.length h.bufs.length id hid]
  simp [getBuf, List.getD_eq_getElem?_getD, List.getElem?_append_left hid]

/-- Claim C6, amended, witness: the same one-write program run through the
worker executor leaves the source buffer `[1]` unchanged. -/
theorem claim_C6_witness :
    getBuf (executeWorker ⟨[[1]]⟩ [⟨"data.xlsx", 0⟩] [(0, 0, 0)]) 0 =
      getBuf ⟨[[1]]⟩ 0 :=
  claim_C6_amended ⟨[[1]]⟩ [⟨"data.xlsx", 0⟩] [(0, 0, 0)] 0 (by decide)

/-- Claim C7, counterexample: when the output buffer does not parse, the
structure layer fails and verification returns early — the styling layer's
failing check result is neither computed into the verdict (it stays `pass`)
nor reported in the error list, refuting "a structure-layer failure never
prevents the values and styling checks from being computed and their errors
from being reported". -/
theorem claim_C7_counterexample :
    (verifyOutput (Except.error "bad zip")
      ["styling: no bold font defined in styles.xml"]
      ⟨none, none, none, none⟩).structure_ = Verdict.fail ∧
    (verifyOutput (Except.error "bad zip")
      ["styling: no bold font defined in styles.xml"]
      ⟨none, none, none, none⟩).styling = Verdict.pass ∧
    (verifyOutput (Except.error "bad zip")
      ["styling: no bold font defined in styles.xml"]
      ⟨none, none, none, none⟩).errors = ["Cannot parse xlsx: bad zip"] :=
  ⟨rfl, rfl, rfl⟩

/-- Claim C7, amended: whenever the output buffer parses, the three layers
are computed independently — each layer's verdict is determined by its own
error list alone, and the error lists of all three layers are reported,
concatenated in layer order, even when an earlier layer fails; only a parse
failure short-circuits (then values and styling are skipped entirely). -/
theorem claim_C7_amended :
    ∀ (wb : ParsedWb) (se : List String) (exp : Expected),
      (verifyOutput (Except.ok wb) se exp).errors =
        checkStructure wb.sheetNames wb.rows (getHeaders wb.rows) exp
        ++ checkValues wb.rows (getHeaders wb.rows) exp.checks ++ se ∧
      ((verifyOutput (Except.ok wb) se exp).structure_ = Verdict.pass ↔
        checkStructure wb.sheetNames wb.rows (getHeaders wb.rows) exp = []) ∧
      ((verifyOutput (Except.ok wb) se exp).values = Verdict.pass ↔
        checkValues wb.rows (getHeaders wb.rows) exp.checks = []) ∧
      ((verifyOutput (Except.ok wb) se exp).styling = Verdict.pass ↔ se = []) := by
  intro wb se exp
  refine ⟨rfl, ?_, ?_, ?_⟩ <;>
    · show (if _ then Verdict.pass else Verdict.fail) = Verdict.pass ↔ _
      split <;> simp_all [List.isEmpty_iff]

/-- Adding a string to a JS-style set list preserves distinctness. -/
theorem addUnique_nodup {u : List String} {s : String} (h : u.Nodup) :
    (addUnique u s).Nodup := by
  unfold addUnique
  split
  · exact h
  · next hc =>
      rw [← List.concat_eq_append]
      refine List.Nodup.concat ?_ h
      simpa using hc

/-- A key set built by `compare_keys` is distinct. -/
theorem keysList_nodup (rows : List (List Cell)) (col : Nat) (start : Int) :
    (keysList rows col start).Nodup := by
  unfold keysList
  generalize idxRange start (rows.length : Int) = idxs
  suffices h : ∀ (idxs : List Int) (acc : List String), acc.Nodup →
      (idxs.foldl (fun acc r =>
        match cellAtInt rows r col with
        | Cell.null => acc
        | v =>
            let s := jsTrim (cellToString v)
            if s.isEmpty then acc else addUnique acc s) acc).Nodup by
    exact h idxs [] List.nodup_nil
  intro idxs
  induction idxs with
  | nil => intro acc hacc; exact hacc
  | cons r rest ih =>
      intro acc hacc
      rw [List.foldl_cons]
      apply ih
      cases hv : cellAtInt rows r col with
      | null => exact hacc
      | str s =>
          simp only
          split
          · exact hacc
          · exact addUnique_nodup hacc
      | num q =>
          simp only
          split
          · exact hacc
          · exact addUnique_nodup hacc

/-- Counting the members of one distinct list found in another equals the
cardinality of the intersection of their element sets. -/
theorem filter_contains_toFinsetCard (a b : List String) (ha : a.Nodup) :
    (a.filter fun k => b.contains k).length = (a.toFinset ∩ b.toFinset).card := by
  rw [← List.toFinset_card_of_nodup (ha.filter _)]
  congr 1
  ext x
  simp [List.mem_filter]

/-- The shared-key count of two distinct lists is symmetric. -/
theorem filter_contains_length_comm (a b : List String)
    (ha : a.Nodup) (hb : b.Nodup) :
    (a.filter fun k => b.contains k).length =
      (b.filter fun k => a.contains k).length := by
  rw [filter_contains_toFinsetCard a b ha, filter_contains_toFinsetCard b a hb,
    Finset.inter_comm]

/-- Claim C4: `compare_keys` and the swapped-argument call yield the same
shared count, and `only_in_file1` of the one call equals `only_in_file2` of
the other and vice versa, the key sets being the trimmed non-empty
stringified cell values of each side from its start row onward. -/
theorem claim_C4_compare_keys_symmetric :
    ∀ (rows1 : List (List Cell)) (col1 : Nat) (start1 : Int)
      (rows2 : List (List Cell)) (col2 : Nat) (start2 : Int),
      (compareKeys rows1 col1 start1 rows2 col2 start2).shared =
        (compareKeys rows2 col2 start2 rows1 col1 start1).shared ∧
      (compareKeys rows1 col1 start1 rows2 col2 start2).only_in_file1 =
        (compareKeys rows2 col2 start2 rows1 col1 start1).only_in_file2 ∧
      (compareKeys rows1 col1 start1 rows2 col2 start2).only_in_file2 =
        (compareKeys rows2 col2 start2 rows1 col1 start1).only_in_file1 := by
  intro rows1 col1 start1 rows2 col2 start2
  refine ⟨?_, rfl, rfl⟩
  exact filter_contains_length_comm _ _
    (keysList_nodup rows1 col1 start1) (keysList_nodup rows2 col2 start2)

/-- Character-list prefix test agrees with list decomposition. -/
theorem listStartsWith_iff (w : List Char) :
    ∀ cs, listStartsWith w cs = true ↔ ∃ t, cs = w ++ t := by
  induction w with
  | nil => intro cs; simp [listStartsWith]
  | cons a as ih =>
      intro cs
      cases cs with
      | nil => simp [listStartsWith]
      | cons b bs =>
          simp only [listStartsWith, Bool.and_eq_true, beq_iff_eq, ih,
            List.cons_append]
          constructor
          · rintro ⟨rfl, t, rfl⟩
            exact ⟨t, rfl⟩
          · rintro ⟨t, ht⟩
            injection ht with h1 h2
            exact ⟨h1.symm, t, h2⟩

/-- Shifting the left-neighbour character into the prefix. -/
theorem lastOr_cons : ∀ (pre : List Char) (prev : Option Char) (c : Char),
    lastOr prev (c :: pre) = lastOr (some c) pre := by
  intro pre
  induction pre with
  | nil => intro prev c; rfl
  | cons d l ih =>
      intro prev c
      have e1 : lastOr prev (c :: d :: l) = lastOr prev (d :: l) := by
        simp only [lastOr, List.getLast?_cons_cons]
      have e2 : lastOr (some c) (d :: l) = lastOr (some d) l := ih (some c) d
      rw [e1, e2, ← ih prev d]

/-- Every summary word is non-empty. -/
theorem summaryWords_ne_nil : ∀ w ∈ summaryWords, w ≠ [] := by decide

/-- The executable whole-word scanner agrees with the declarative whole-word
occurrence predicate. -/
theorem scanWords_iff : ∀ (cs : List Char) (prev : Option Char),
    scanWords prev cs = true ↔ WholeWordFrom prev cs := by
  intro cs
  induction cs with
  | nil =>
      intro prev
      constructor
      · intro h
        exfalso
        simp [scanWords, wordHere, summaryWords, listStartsWith] at h
      · rintro ⟨pre, w, post, hw, hsplit, _, _⟩
        exfalso
        have hwnil : w = [] := by
          cases pre <;> simp_all
        exact summaryWords_ne_nil w hw hwnil
  | cons c rest ih =>
      intro prev
      rw [scanWords]
      simp only [Bool.or_eq_true, ih]
      constructor
      · rintro (hword | hrest)
        · simp only [wordHere, List.any_eq_true, Bool.and_eq_true] at hword
          obtain ⟨w, hw, ⟨hbl, hpref⟩, hbr⟩ := hword
          obtain ⟨t, ht⟩ := (listStartsWith_iff w (c :: rest)).mp hpref
          rw [ht, List.drop_left] at hbr
          exact ⟨[], w, t, hw, by simpa using ht, by simpa [lastOr] using hbl, hbr⟩
        · obtain ⟨pre, w, post, hw, hsplit, hbl, hbr⟩ := hrest
          refine ⟨c :: pre, w, post, hw, by simp [hsplit], ?_, hbr⟩
          rw [lastOr_cons]
          exact hbl
      · rintro ⟨pre, w, post, hw, hsplit, hbl, hbr⟩
        cases pre with
        | nil =>
            left
            simp only [List.nil_append] at hsplit
            simp only [wordHere, List.any_eq_true, Bool.and_eq_true]
            refine ⟨w, hw, ⟨by simpa [lastOr] using hbl, ?_⟩, ?_⟩
            · exact (listStartsWith_iff _ _).mpr ⟨post, hsplit⟩
            · rw [hsplit, List.drop_left]
              exact hbr
        | cons c' pre' =>
            right
            simp only [List.cons_append] at hsplit
            injection hsplit with h1 h2
            subst h1
            rw [lastOr_cons] at hbl
            exact ⟨pre', w, post, hw, h2, hbl, hbr⟩

/-- The `column_sum` fold is the sum of the designated column's numeric cells
over the rows that are not summary rows. -/
theorem columnSum_foldl_aux (ci : Nat) :
    ∀ (l : List (List Cell)) (acc : ℚ),
      l.foldl (fun s row =>
        if isSummaryRow row then s
        else
          match cellAt row ci with
          | Cell.num v => s + v
          | _ => s) acc
      = acc + ((l.filter fun r => !isSummaryRow r).map fun r => numAt r ci).sum := by
  intro l
  induction l with
  | nil => intro acc; simp
  | cons row rest ih =>
      intro acc
      rw [List.foldl_cons]
      by_cases hs : isSummaryRow row
      · rw [if_pos hs, ih]
        simp [List.filter_cons, hs]
      · rw [if_neg hs]
        cases hv : cellAt row ci with
        | num v =>
            rw [ih]
            simp [List.filter_cons, hs, numAt, hv]
            ring
        | null =>
            rw [ih]
            simp [List.filter_cons, hs, numAt, hv]
        | str s =>
            rw [ih]
            simp [List.filter_cons, hs, numAt, hv]

/-- Claim C5: the `column_sum` check sums the designated column's numeric
cells over exactly those data rows that are not excluded, and a row is
excluded precisely when some cell of it is a string containing a
case-insensitive whole-word occurrence of total, sum, subtotal or grand —
even when the row also has numeric cells. -/
theorem claim_C5_column_sum_excludes_summary_rows :
    ∀ (dataRows : List (List Cell)) (ci : Nat),
      columnSumOver dataRows ci =
        ((dataRows.filter fun r => !isSummaryRow r).map fun r => numAt r ci).sum
      ∧ ∀ row : List Cell,
          (isSummaryRow row = true ↔ ∃ s, Cell.str s ∈ row ∧ HasWholeWord s) := by
  intro dataRows ci
  constructor
  · have h := columnSum_foldl_aux ci dataRows 0
    simpa [columnSumOver] using h
  · intro row
    simp only [isSummaryRow, List.any_eq_true]
    constructor
    · rintro ⟨v, hv, hsum⟩
      cases v with
      | str s => exact ⟨s, hv, (scanWords_iff _ _).mp hsum⟩
      | null => simp [isSummaryCell] at hsum
      | num q => simp [isSummaryCell] at hsum
    · rintro ⟨s, hmem, hww⟩
      exact ⟨Cell.str s, hmem, (scanWords_iff _ _).mpr hww⟩

/-- The code's `approxEqual` at the default tolerance accepts exactly the
pairs within `max(1% relative, 0.01 absolute)` of each other. -/
theorem approxEqual_iff (a b : ℚ) :
    approxEqual a b (1/100) = true ↔
      |a - b| ≤ 1/100 ∨ |a - b| ≤ (1/100) * |b| := by
  unfold approxEqual
  split
  · next h =>
      subst h
      simp
  · simp [mul_comm]

/-- Claim C8: the numeric comparison of the value checks accepts `a` against
expected `b` exactly when `|a - b| ≤ 0.01` or `|a - b| ≤ 0.01 * |b|`, and
consequently the profit check accepts a row whose Sales, Expenses and Profit
cells are numeric exactly when Profit is within this tolerance of
Sales minus Expenses. -/
theorem claim_C8_tolerance_and_profit_check :
    ∀ a b : ℚ,
      (approxEqual a b (1/100) = true ↔
        |a - b| ≤ 1/100 ∨ |a - b| ≤ (1/100) * |b|) ∧
      ∀ (r : Nat) (row : List Cell) (si ei pci : Nat) (s e p : ℚ),
        cellAt row si = Cell.num s → cellAt row ei = Cell.num e →
        cellAt row pci = Cell.num p →
        (profitRowErr r row si ei pci = none ↔
          |p - (s - e)| ≤ 1/100 ∨ |p - (s - e)| ≤ (1/100) * |s - e|) := by
  intro a b
  refine ⟨approxEqual_iff a b, ?_⟩
  intro r row si ei pci s e p hs he hp
  simp only [profitRowErr, hs, he, hp]
  constructor
  · intro hnone
    by_cases hb : approxEqual p (s - e) (1/100) = true
    · exact (approxEqual_iff _ _).mp hb
    · rw [if_neg hb] at hnone
      simp at hnone
  · intro hOr
    have hb := (approxEqual_iff _ _).mpr hOr
    rw [if_pos hb]

/-- Claim C8, witness: equal values are accepted, and the profit row
`(Sales, Expenses, Profit) = (5, 2, 3)` passes the profit check. -/
theorem claim_C8_witness :
    approxEqual 3 3 (1/100) = true ∧
    profitRowErr 0 [Cell.num 5, Cell.num 2, Cell.num 3] 0 1 2 = none :=
  ⟨((claim_C8_tolerance_and_profit_check 3 3).1).mpr (Or.inl (by norm_num)),
   ((claim_C8_tolerance_and_profit_check 3 3).2 0
      [Cell.num 5, Cell.num 2, Cell.num 3] 0 1 2 5 2 3 rfl rfl rfl).mpr
     (Or.inl (by norm_num))⟩

/-- Membership after a JS-set insertion. -/
theorem addUnique_mem (u : List String) (a s : String) :
    s ∈ addUnique u a ↔ s ∈ u ∨ s = a := by
  unfold addUnique
  split
  · next hc =>
      have ha : a ∈ u := by simpa using hc
      constructor
      · exact Or.inl
      · rintro (h | rfl)
        · exact h
        · exact ha
  · simp [List.mem_append]

/-- The capped uniques fold never grows past 30 entries. -/
theorem uniqFold_len : ∀ (l : List String) (u : List String), u.length ≤ 30 →
    (l.foldl (fun u s => if u.length < 30 then addUnique u s else u) u).length ≤ 30 := by
  intro l
  induction l with
  | nil => intro u hu; simpa using hu
  | cons a rest ih =>
      intro u hu
      rw [List.foldl_cons]
      apply ih
      split
      · next hlt =>
          unfold addUnique
          split
          · exact hu
          · simp only [List.length_append, List.length_cons, List.length_nil]
            omega
      · exact hu

/-- The capped uniques fold never loses a member. -/
theorem uniqFold_mem_mono : ∀ (l : List String) (u : List String) (s : String),
    s ∈ u →
    s ∈ l.foldl (fun u s => if u.length < 30 then addUnique u s else u) u := by
  intro l
  induction l with
  | nil => intro u s hs; simpa using hs
  | cons a rest ih =>
      intro u s hs
      rw [List.foldl_cons]
      apply ih
      split
      · exact (addUnique_mem u a s).mpr (Or.inl hs)
      · exact hs

/-- The capped uniques fold never shrinks. -/
theorem uniqFold_len_mono : ∀ (l : List String) (u : List String),
    u.length ≤
      (l.foldl (fun u s => if u.length < 30 then addUnique u s else u) u).length := by
  intro l
  induction l with
  | nil => intro u; simp
  | cons a rest ih =>
      intro u
      rw [List.foldl_cons]
      refine le_trans ?_ (ih _)
      split
      · unfold addUnique
        split
        · exact le_refl _
        · simp
      · exact le_refl _

/-- If the capped uniques fold ends below the cap, it saw every value. -/
theorem uniqFold_complete : ∀ (l : List String) (u : List String),
    (l.foldl (fun u s => if u.length < 30 then addUnique u s else u) u).length < 30 →
    ∀ s ∈ l, s ∈ l.foldl (fun u s => if u.length < 30 then addUnique u s else u) u := by
  intro l
  induction l with
  | nil => intro u _ s hs; simp at hs
  | cons a rest ih =>
      intro u hlen s hs
      rw [List.foldl_cons] at hlen ⊢
      have hu30 : u.length < 30 := by
        by_contra hge
        have h1 := uniqFold_len_mono rest (if u.length < 30 then addUnique u a else u)
        rw [if_neg hge] at h1 hlen
        omega
      rw [if_pos hu30] at hlen ⊢
      rcases List.mem_cons.mp hs with rfl | hrest
      · exact uniqFold_mem_mono rest _ s ((addUnique_mem u s s).mpr (Or.inr rfl))
      · exact ih _ hlen s hrest

/-- A JS set list is distinct. -/
theorem setList_nodup (l : List String) : (setList l).Nodup := by
  unfold setList
  suffices h : ∀ (l : List String) (u : List String), u.Nodup →
      (l.foldl addUnique u).Nodup from h l [] List.nodup_nil
  intro l
  induction l with
  | nil => intro u hu; simpa using hu
  | cons a rest ih =>
      intro u hu
      rw [List.foldl_cons]
      exact ih _ (addUnique_nodup hu)

/-- A JS set list has the same members as its source list. -/
theorem setList_mem (l : List String) (s : String) :
    s ∈ setList l ↔ s ∈ l := by
  unfold setList
  suffices h : ∀ (l : List String) (u : List String),
      s ∈ l.foldl addUnique u ↔ s ∈ u ∨ s ∈ l by
    simpa using h l []
  intro l
  induction l with
  | nil => intro u; simp
  | cons a rest ih =>
      intro u
      rw [List.foldl_cons, ih, addUnique_mem]
      constructor
      · rintro ((h | rfl) | h)
        · exact Or.inl h
        · exact Or.inr (List.mem_cons_self _ _)
        · exact Or.inr (List.mem_cons_of_mem _ h)
      · rintro (h | h)
        · exact Or.inl (Or.inl h)
        · rcases List.mem_cons.mp h with rfl | h'
          · exact Or.inl (Or.inr rfl)
          · exact Or.inr h'

/-- The uniques component of the column-stats fold is the capped uniques fold
over the non-empty stringified values. -/
theorem statsFold_uniques (vals : List Cell) :
    ∀ (acc : StatsAcc),
      (vals.foldl statsStep acc).uniques =
        (vals.filterMap fun v =>
          if isEmptyCell v then none else some (cellToString v)).foldl
          (fun u s => if u.length < 30 then addUnique u s else u) acc.uniques := by
  induction vals with
  | nil => intro acc; rfl
  | cons v rest ih =>
      intro rowsAcc
      rw [List.foldl_cons]
      by_cases hv : isEmptyCell v = true
      · rw [ih]
        simp [statsStep, hv, List.filterMap_cons]
      · rw [ih]
        simp [statsStep, hv, List.filterMap_cons]

/-- Claim C9: `get_column_stats` returns at most 30 unique values, and when
the column holds more than 30 distinct non-empty values the result carries
the overflow marker: `unique_count` reports `'30+'`. -/
theorem claim_C9_unique_values_capped :
    ∀ (rows : List (List Cell)) (col : Nat) (start : Int),
      (columnStats rows col start).unique_values.length ≤ 30 ∧
      (30 < distinctValueCount rows col start →
        (columnStats rows col start).unique_count = UniqueCount.thirtyPlus) := by
  intro rows col start
  have huniq : ((((idxRange start (rows.length : Int)).map fun r =>
      cellAtInt rows r col)).foldl statsStep ⟨0, 0, 0, 0, []⟩).uniques =
      (colValues rows col start).foldl
        (fun u s => if u.length < 30 then addUnique u s else u) [] := by
    rw [statsFold_uniques]
    rfl
  have hlen : ((colValues rows col start).foldl
      (fun u s => if u.length < 30 then addUnique u s else u) []).length ≤ 30 :=
    uniqFold_len _ [] (by norm_num)
  constructor
  · simp only [columnStats, huniq]
    rw [if_pos hlen]
    exact hlen
  · intro hd
    have hge : ¬ ((colValues rows col start).foldl
        (fun u s => if u.length < 30 then addUnique u s else u) []).length < 30 := by
      intro hUlt
      have hcomp := uniqFold_complete (colValues rows col start) [] hUlt
      have hsub : (setList (colValues rows col start)).toFinset ⊆
          ((colValues rows col start).foldl
            (fun u s => if u.length < 30 then addUnique u s else u) []).toFinset := by
        intro s hs
        rw [List.mem_toFinset] at hs ⊢
        exact hcomp s ((setList_mem _ s).mp hs)
      have h1 : (setList (colValues rows col start)).length =
          (setList (colValues rows col start)).toFinset.card :=
        (List.toFinset_card_of_nodup (setList_nodup _)).symm
      have h2 := Finset.card_le_card hsub
      have h3 := List.toFinset_card_le ((colValues rows col start).foldl
        (fun u s => if u.length < 30 then addUnique u s else u) [])
      unfold distinctValueCount at hd
      omega
    simp only [columnStats, huniq]
    rw [if_pos (by omega : ((colValues rows col start).foldl
      (fun u s => if u.length < 30 then addUnique u s else u) []).length ≥ 30)]

/-- Claim C9, witness: a column of 31 distinct strings has more than 30
distinct values and its stats report `'30+'`. -/
theorem claim_C9_witness :
    30 < distinctValueCount ((List.range 31).map fun i => [Cell.str (toString i)]) 0 0 ∧
    (columnStats ((List.range 31).map fun i => [Cell.str (toString i)]) 0 0).unique_count
      = UniqueCount.thirtyPlus :=
  ⟨by decide,
   (claim_C9_unique_values_capped
      ((List.range 31).map fun i => [Cell.str (toString i)]) 0 0).2 (by decide)⟩

/-- Claim C10: the tool dispatcher returns ordinary error-carrying result
values at its public boundary. A name outside the fixed vocabulary yields an
`Unknown tool` error value; when the file of a single-file tool does not
resolve, the error value lists the available file names; when `compare_keys`
cannot resolve either file, likewise; and when a sheet does not resolve, the
sheet error value is returned — never an exception (the embedding's executor
is a total function into result values, and these equations pin the error
branches). -/
theorem claim_C10_dispatcher_errors_as_values :
    ∀ (files : List WbFile) (name : String) (input : ToolInput),
      (name ∉ toolNames →
        executeTool files name input = ToolOut.error ("Unknown tool: " ++ name)) ∧
      ((name = "read_rows" ∨ name = "get_column_stats" ∨ name = "find_rows") →
        findFile files input.file = none →
        executeTool files name input =
          ToolOut.error (fileNotFoundMsg files input.file)) ∧
      (name = "compare_keys" → findFile files input.file1 = none →
        executeTool files name input =
          ToolOut.error (fileNotFoundMsg files input.file1)) ∧
      (name = "compare_keys" → findFile files input.file2 = none →
        ∀ f1, findFile files input.file1 = some f1 →
        executeTool files name input =
          ToolOut.error (fileNotFoundMsg files input.file2)) ∧
      ((name = "read_rows" ∨ name = "get_column_stats" ∨ name = "find_rows") →
        ∀ f msg, findFile files input.file = some f →
        getSheetE f input.sheet = Except.error msg →
        executeTool files name input = ToolOut.error msg) ∧
      fileNotFoundMsg files input.file =
        "File not found: \"" ++ input.file ++ "\". Available: "
        ++ String.intercalate ", " (files.map WbFile.name) := by
  intro files name input
  refine ⟨?_, ?_, ?_, ?_, ?_, rfl⟩
  · intro h
    simp only [toolNames, List.mem_cons, List.not_mem_nil, or_false, not_or] at h
    obtain ⟨h1, h2, h3, h4, h5, h6, h7⟩ := h
    simp [executeTool, h1, h2, h3, h4, h5, h6, h7]
  · rintro (rfl | rfl | rfl) hfind <;> simp [executeTool, hfind]
  · rintro rfl hfind
    simp [executeTool, hfind]
  · rintro rfl hfind f1 hf1
    simp [executeTool, hfind, hf1]
  · rintro (rfl | rfl | rfl) f msg hf hsheet <;> simp [executeTool, hf, hsheet]

/-- Claim C10, witness: an unknown tool name and an unresolvable file name
both come back as error values with the documented messages. -/
theorem claim_C10_witness :
    executeTool [⟨"data.xlsx", [⟨"Sheet1", [[Cell.str "A"]]⟩]⟩] "bogus_tool"
        ⟨"nope", none, 0, 0, 0, "", none, "n1", 0, 0, none, "n2", 0, 0, none⟩
      = ToolOut.error "Unknown tool: bogus_tool" ∧
    executeTool [⟨"data.xlsx", [⟨"Sheet1", [[Cell.str "A"]]⟩]⟩] "read_rows"
        ⟨"nope", none, 0, 0, 0, "", none, "n1", 0, 0, none, "n2", 0, 0, none⟩
      = ToolOut.error "File not found: \"nope\". Available: data.xlsx" := by
  constructor
  · exact (claim_C10_dispatcher_errors_as_values
      [⟨"data.xlsx", [⟨"Sheet1", [[Cell.str "A"]]⟩]⟩] "bogus_tool"
      ⟨"nope", none, 0, 0, 0, "", none, "n1", 0, 0, none, "n2", 0, 0, none⟩).1
      (by decide)
  · rw [(claim_C10_dispatcher_errors_as_values
      [⟨"data.xlsx", [⟨"Sheet1", [[Cell.str "A"]]⟩]⟩] "read_rows"
      ⟨"nope", none, 0, 0, 0, "", none, "n1", 0, 0, none, "n2", 0, 0, none⟩).2.1
      (Or.inl rfl) (by decide)]
    rfl
